import Mathlib

/-!
Shallow embedding of the `execution-timer` repository: a timing decorator
(`time_execution`) plus a stateful recorder (`ExecutionTimer`).

The repository ships only its README and an examples notebook under `src/`;
the implementation module itself is not present there. Every definition
below is therefore modelled from the specification, corrected by the
behaviour that the in-repo README Notes and the recorded notebook outputs
document (those two files are the repository evidence and take precedence
over the specification text wherever they disagree).

Modelling conventions:
- Wall-clock time is a function `clock : Nat -> Rat` giving the value of the
  performance counter at its i-th sampling; the wrapper samples the clock
  immediately before and immediately after each of the `n_iter` runs, so run
  `i` takes samples `2*i` and `2*i+1`. Floating-point durations are modelled
  as rationals.
- Printing to standard output is modelled as the list of emitted messages,
  each message being a structured value (`Msg`) recording which of the two
  templates was used, the callable name, the reported duration and the unit
  flag; `Msg.render` produces the concrete text line.
- A Python return value that is either `R`, `(R, t)` or `(R, [t1, ..., tn])`
  is modelled by the inductive `TimedResult`.
-/

namespace ExecTimer

/-- Modelled from the spec: the elapsed times of the `n` sequential runs of
the wrapped callable, the i-th run being measured from clock sample `2*i`
(just before the call) to clock sample `2*i+1` (just after it returns). -/
def elapsedTimes (clock : Nat → ℚ) (n : Nat) : List ℚ :=
  (List.range n).map (fun i => clock (2 * i + 1) - clock (2 * i))

/-- Arithmetic mean of a list of durations (sum divided by length). -/
def mean (ts : List ℚ) : ℚ := ts.sum / (ts.length : ℚ)

/-- Unit word used in printed messages. -/
def unitWord (nanos : Bool) : String := if nanos then "nanoseconds" else "seconds"

/-- One line printed to standard output.
`single name t nanos` stands for the template
"The \x27name\x27 function was executed in T unit." and
`average n name t nanos` stands for the template
"Iterations: n. The \x27name\x27 function was executed in an average of
T unit per iteration." -/
inductive Msg where
  | single : String → ℚ → Bool → Msg
  | average : Nat → String → ℚ → Bool → Msg
deriving DecidableEq

/-- Five-decimal fixed-point rendering of a duration (the `.5f` format of the
printed messages; ties are rounded up, which is immaterial to the claims). -/
def fmt5 (q : ℚ) : String :=
  let n : Int := Int.floor (q * 100000 + 1 / 2)
  let m : Nat := n.natAbs
  let ip : Nat := m / 100000
  let fp : Nat := m % 100000
  let fpDigits : String := toString fp
  let pad : String := String.mk (List.replicate (5 - fpDigits.length) (Char.ofNat 48))
  (if n < 0 then "-" else "") ++ toString ip ++ "." ++ pad ++ fpDigits

/-- Concrete text of a printed message. -/
def Msg.render : Msg → String
  | .single name t nanos =>
      "The \x27" ++ name ++ "\x27 function was executed in " ++ fmt5 t ++ " " ++
        unitWord nanos ++ "."
  | .average n name t nanos =>
      "Iterations: " ++ toString n ++ ". The \x27" ++ name ++
        "\x27 function was executed in an average of " ++ fmt5 t ++ " " ++
        unitWord nanos ++ " per iteration."

/-- Return value of a wrapped call: the plain result, the result paired with
one duration, or the result paired with the list of per-iteration durations. -/
inductive TimedResult (β : Type) where
  | plain : β → TimedResult β
  | withTime : β → ℚ → TimedResult β
  | withTimes : β → List ℚ → TimedResult β
deriving DecidableEq

/-- Configuration of the free-standing decorator, with the documented
defaults. -/
structure Config where
  return_measure : Bool := false
  nanoseconds : Bool := false
  n_iter : Nat := 1
  return_average : Bool := true
deriving DecidableEq

/-- The default configuration of the free-standing decorator. -/
def defaultConfig : Config := ⟨false, false, 1, true⟩

/-- Modelled from the spec: the free-standing decorator `time_execution`
(its implementation module is absent from `src/`). One logical call runs the
callable `cfg.n_iter` times, then dispatches on the configuration:
- `n_iter = 1`: return `(R, T)` when `return_measure`, else print the
  single-run message and return `R`;
- `n_iter > 1`, `return_average = true`: report the arithmetic mean, either
  returned as `(R_last, T_avg)` or printed as the iterations-average message;
- `n_iter > 1`, `return_average = false`: when `return_measure`, return the
  last result together with the list of all per-iteration times (README
  Notes: "the result will be the last function result with a list of times
  for each iteration"); otherwise print one single-run message per
  iteration. -/
def time_execution {α β : Type} (cfg : Config) (name : String) (f : α → β)
    (x : α) (clock : Nat → ℚ) : TimedResult β × List Msg :=
  let times := elapsedTimes clock cfg.n_iter
  let result := f x
  if cfg.n_iter > 1 then
    if cfg.return_average then
      if cfg.return_measure then (.withTime result (mean times), [])
      else (.plain result, [.average cfg.n_iter name (mean times) cfg.nanoseconds])
    else
      if cfg.return_measure then (.withTimes result times, [])
      else (.plain result, times.map (fun t => .single name t cfg.nanoseconds))
  else
    if cfg.return_measure then (.withTime result (times.headD 0), [])
    else (.plain result, [.single name (times.headD 0) cfg.nanoseconds])

/-- Modelled from the spec (error-handling policy): decoration-time
validation of `n_iter`. A non-positive `n_iter` is a configuration error that
fails fast with a clear error signal instead of being silently clamped; a
positive `n_iter` yields the decorated callable. -/
def time_execution_checked {α β : Type} (return_measure nanoseconds : Bool)
    (n_iter : Int) (return_average : Bool) (name : String) (f : α → β) :
    Except String (α → (Nat → ℚ) → TimedResult β × List Msg) :=
  if n_iter < 1 then Except.error "n_iter must be a positive integer"
  else Except.ok (fun x clock =>
    time_execution ⟨return_measure, nanoseconds, n_iter.toNat, return_average⟩
      name f x clock)

/-- Sequence of recorded elapsed-time samples. -/
abbrev Samples := List ℚ

/-- One entry of the recorder log: a leaf list of samples (plain function
key) or a nested method-name-to-samples mapping (class key). -/
inductive LogEntry where
  | leaf : Samples → LogEntry
  | node : List (String × Samples) → LogEntry
deriving DecidableEq

/-- The recorder log: insertion-ordered mapping from key to entry, modelling
the Python dict. -/
abbrev Log := List (String × LogEntry)

/-- How a wrapped call is being invoked. Modelled from the spec: the
implementation inspects, at call time, whether the first positional argument
is an instance of a user-defined type; in the embedding the outcome of that
runtime heuristic is an input of the call. -/
inductive CallKind where
  | function
  | method : String → CallKind
deriving DecidableEq

/-- First entry of the log at the given key, in insertion order. -/
def logFind : Log → String → Option LogEntry
  | [], _ => none
  | (k, e) :: rest, s => if k = s then some e else logFind rest s

/-- Samples stored at a key of an inner (method-level) mapping; empty when
the key is absent. -/
def innerAt : List (String × Samples) → String → Samples
  | [], _ => []
  | (k, v) :: rest, s => if k = s then v else innerAt rest s

/-- Append samples at a key of an inner mapping, creating the key at the end
when absent (Python dict insertion order). -/
def extendAt : List (String × Samples) → String → Samples → List (String × Samples)
  | [], k, ts => [(k, ts)]
  | (k0, v0) :: rest, k, ts =>
      if k0 = k then (k0, v0 ++ ts) :: rest
      else (k0, v0) :: extendAt rest k ts

/-- Modelled from the spec (key-resolution algorithm): append the samples of
one logical call to the log. A plain-function call appends under the single
function-name key; a method call appends under the class-name key and, inside
it, the method-name key. A key already holding an entry of the other shape is
left unchanged (the specification leaves that collision unspecified). -/
def record : Log → CallKind → String → Samples → Log
  | [], .function, name, ts => [(name, .leaf ts)]
  | (k, e) :: rest, .function, name, ts =>
      if k = name then
        (k, match e with
            | .leaf s => .leaf (s ++ ts)
            | .node m => .node m) :: rest
      else (k, e) :: record rest .function name ts
  | [], .method c, name, ts => [(c, .node [(name, ts)])]
  | (k, e) :: rest, .method c, name, ts =>
      if k = c then
        (k, match e with
            | .leaf s => .leaf s
            | .node m => .node (extendAt m name ts)) :: rest
      else (k, e) :: record rest (.method c) name ts

/-- Samples currently stored for a call kind and callable name; empty when no
entry (of the right shape) exists. -/
def samplesAt (log : Log) (kind : CallKind) (name : String) : Samples :=
  match kind with
  | .function =>
      match logFind log name with
      | some (.leaf ts) => ts
      | _ => []
  | .method c =>
      match logFind log c with
      | some (.node m) => innerAt m name
      | _ => []

/-- The key of the log is compatible with the call kind: the entry at the
resolved outer key, if any, has the shape this kind writes. -/
def keyCompat (log : Log) (kind : CallKind) (name : String) : Bool :=
  match kind with
  | .function =>
      match logFind log name with
      | some (.node _) => false
      | _ => true
  | .method c =>
      match logFind log c with
      | some (.leaf _) => false
      | _ => true

/-- Modelled from the spec and README: the stateful recorder. Beyond the
three documented constructor options it also stores a `return_measure`
default, observed in the notebook (`ExecutionTimer(return_measure=True)`).
Its `log` starts empty at construction. -/
structure ExecutionTimer where
  save_measure : Bool := true
  nanoseconds : Bool := false
  n_iter : Nat := 1
  return_measure : Bool := false
  log : Log := []
deriving DecidableEq

/-- Recorder constructor: stores the four options and an empty log. -/
def ExecutionTimer.new (save_measure nanoseconds : Bool) (n_iter : Nat)
    ( return_measure : Bool) : ExecutionTimer :=
  ⟨save_measure, nanoseconds, n_iter, return_measure, []⟩

/-- Modelled from the spec (error-handling policy): recorder construction
validating `n_iter`, failing fast on a non-positive value. -/
def ExecutionTimer.new_checked (save_measure nanoseconds : Bool) (n_iter : Int)
    ( return_measure : Bool) : Except String ExecutionTimer :=
  if n_iter < 1 then Except.error "n_iter must be a positive integer"
  else Except.ok (ExecutionTimer.new save_measure nanoseconds n_iter.toNat
    return_measure)

/-- Modelled from the spec and README: one logical call of a callable
decorated through the recorder. `rmOverride` is the per-decoration
`return_measure` override (`none` means the constructor default applies).
The call runs the callable `n_iter` times; when `save_measure` is enabled all
per-iteration samples are appended to the log at the resolved key. When the
effective `return_measure` is true the return value follows the decorator
table (mean when `return_average`, else the list of per-iteration times, a
single time when `n_iter = 1`) and nothing is printed; when it is false the
call prints one single-run message carrying the elapsed time of the last
execution (README Notes: "the time printed will be the last execution
result", confirmed by the notebook output for `n_iter=5`). -/
def ExecutionTimer.run {α β : Type} (t : ExecutionTimer) (rmOverride : Option Bool)
    (return_average : Bool) (name : String) (kind : CallKind) (f : α → β)
    (x : α) (clock : Nat → ℚ) : ExecutionTimer × TimedResult β × List Msg :=
  let times := elapsedTimes clock t.n_iter
  let result := f x
  let rm := rmOverride.getD t.return_measure
  let log2 := if t.save_measure then record t.log kind name times else t.log
  let out : TimedResult β × List Msg :=
    if rm then
      if t.n_iter > 1 then
        if return_average then (.withTime result (mean times), [])
        else (.withTimes result times, [])
      else (.withTime result (times.headD 0), [])
    else (.plain result, [.single name (times.getLastD 0) t.nanoseconds])
  (⟨t.save_measure, t.nanoseconds, t.n_iter, t.return_measure, log2⟩, out)

/-- Accessor: the full current log. -/
def ExecutionTimer.get_measured_time (t : ExecutionTimer) : Log := t.log

/-- Accessor: clear the log. -/
def ExecutionTimer.reset_measured_time (t : ExecutionTimer) : ExecutionTimer :=
  ⟨t.save_measure, t.nanoseconds, t.n_iter, t.return_measure, []⟩

/-- Entry of the averages mapping: an averaged leaf or a nested mapping of
averaged leaves; an empty sample list averages to `none`. -/
inductive AvgEntry where
  | leaf : Option ℚ → AvgEntry
  | node : List (String × Option ℚ) → AvgEntry
deriving DecidableEq

/-- Average of one leaf: `none` for an empty sample list (no division takes
place), otherwise the arithmetic mean. -/
def avgLeaf (ts : Samples) : Option ℚ :=
  if ts.isEmpty then none else some (mean ts)

/-- Average of one log entry, leaf by leaf. -/
def avgEntryOf : LogEntry → AvgEntry
  | .leaf ts => .leaf (avgLeaf ts)
  | .node m => .node (m.map (fun q => (q.1, avgLeaf q.2)))

/-- Averages of a whole log, leaf by leaf, preserving the key shape. -/
def avgLog (log : Log) : List (String × AvgEntry) :=
  log.map (fun p => (p.1, avgEntryOf p.2))

/-- Accessor: per-key average of the recorded times. -/
def ExecutionTimer.average_measured_time (t : ExecutionTimer) :
    List (String × AvgEntry) :=
  avgLog t.log

/-- First entry of an averages mapping at the given key. -/
def avgFind : List (String × AvgEntry) → String → Option AvgEntry
  | [], _ => none
  | (k, e) :: rest, s => if k = s then some e else avgFind rest s

/-- Value at a key of an inner averaged mapping; `none` when absent. -/
def innerAtO : List (String × Option ℚ) → String → Option ℚ
  | [], _ => none
  | (k, v) :: rest, s => if k = s then v else innerAtO rest s

/-- Averaged value reported for a call kind and callable name; `none` when no
entry of the right shape exists. -/
def avgAt (a : List (String × AvgEntry)) (kind : CallKind) (name : String) :
    Option ℚ :=
  match kind with
  | .function =>
      match avgFind a name with
      | some (.leaf v) => v
      | _ => none
  | .method c =>
      match avgFind a c with
      | some (.node m) => innerAtO m name
      | _ => none

/-- One wrapped call in a call sequence: the per-decoration override, the
effective `return_average`, the resolved name and kind, the callable with its
argument, and the clock segment observed during the call. -/
structure CallSpec where
  rmOverride : Option Bool
  return_average : Bool
  name : String
  kind : CallKind
  f : ℚ → ℚ
  x : ℚ
  clock : Nat → ℚ

/-- Run a sequence of wrapped calls against a recorder, threading its state. -/
def runCalls : ExecutionTimer → List CallSpec → ExecutionTimer
  | t, [] => t
  | t, c :: rest =>
      runCalls ((t.run c.rmOverride c.return_average c.name c.kind c.f c.x c.clock).1) rest

/-- Constant clock used to evaluate the model on concrete inputs: every
sample reads 0, so every elapsed time is 0. -/
def clock0 : Nat → ℚ := fun _ => 0

/-- Identity callable on rationals, used to evaluate the model on concrete
inputs. -/
def idq : ℚ → ℚ := fun q => q

/-- Concrete log used to evaluate the accessor operations: one plain-function
key, and one class key with a sampled method and a method with no samples. -/
def sampleLog : Log :=
  [("sample_function", .leaf [1, 2, 3]),
   ("SampleClass", .node [("sample_method", [2]), ("empty_method", [])])]

/-- Concrete recorder holding `sampleLog`. -/
def sampleTimer : ExecutionTimer := ⟨true, false, 1, false, sampleLog⟩

/-! Helper lemmas about the log operations. -/

theorem innerAt_extendAt (m : List (String × Samples)) (k : String) (ts : Samples) :
    innerAt (extendAt m k ts) k = innerAt m k ++ ts := by
  induction m with
  | nil => simp [extendAt, innerAt]
  | cons p rest ih =>
      obtain ⟨k0, v0⟩ := p
      by_cases h : k0 = k
      · simp [extendAt, innerAt, h]
      · simp [extendAt, innerAt, h, ih]

theorem samplesAt_record_function (log : Log) (name : String) (ts : Samples)
    (h : keyCompat log .function name = true) :
    samplesAt (record log .function name ts) .function name =
      samplesAt log .function name ++ ts := by
  induction log with
  | nil => simp [record, samplesAt, logFind]
  | cons p rest ih =>
      obtain ⟨k, e⟩ := p
      by_cases hk : k = name
      · subst hk
        cases e with
        | leaf s => simp [record, samplesAt, logFind]
        | node m => simp [keyCompat, logFind] at h
      · have h2 : keyCompat rest .function name = true := by
          simpa [keyCompat, logFind, hk] using h
        have ih2 := ih h2
        simp only [samplesAt] at ih2 ⊢
        simpa [record, logFind, hk] using ih2

theorem samplesAt_record_method (log : Log) (c name : String) (ts : Samples)
    (h : keyCompat log (.method c) name = true) :
    samplesAt (record log (.method c) name ts) (.method c) name =
      samplesAt log (.method c) name ++ ts := by
  induction log with
  | nil => simp [record, samplesAt, logFind, innerAt, extendAt]
  | cons p rest ih =>
      obtain ⟨k, e⟩ := p
      by_cases hk : k = c
      · subst hk
        cases e with
        | leaf s => simp [keyCompat, logFind] at h
        | node m => simp [record, samplesAt, logFind, innerAt_extendAt]
      · have h2 : keyCompat rest (.method c) name = true := by
          simpa [keyCompat, logFind, hk] using h
        have ih2 := ih h2
        simp only [samplesAt] at ih2 ⊢
        simpa [record, logFind, hk] using ih2

theorem run_log_save {α β : Type} (t : ExecutionTimer) (o : Option Bool)
    (ra : Bool) (name : String) (kind : CallKind) (f : α → β) (x : α)
    (clock : Nat → ℚ) (hsave : t.save_measure = true) :
    (t.run o ra name kind f x clock).1.log =
      record t.log kind name (elapsedTimes clock t.n_iter) := by
  simp [ExecutionTimer.run, hsave]

theorem run_save_false {α β : Type} (t : ExecutionTimer) (o : Option Bool)
    (ra : Bool) (name : String) (kind : CallKind) (f : α → β) (x : α)
    (clock : Nat → ℚ) (hsave : t.save_measure = false) :
    (t.run o ra name kind f x clock).1 = t := by
  obtain ⟨s, b1, n1, b2, l1⟩ := t
  simp only [ExecutionTimer.save_measure] at hsave
  subst hsave
  simp [ExecutionTimer.run]

theorem length_elapsedTimes (clock : Nat → ℚ) (n : Nat) :
    (elapsedTimes clock n).length = n := by
  simp [elapsedTimes]

theorem elapsedTimes_one (clock : Nat → ℚ) :
    elapsedTimes clock 1 = [clock 1 - clock 0] := by
  simp [elapsedTimes, List.range_succ]

theorem avgFind_avgLog (log : Log) (k : String) :
    avgFind (avgLog log) k = (logFind log k).map avgEntryOf := by
  induction log with
  | nil => rfl
  | cons p rest ih =>
      obtain ⟨k0, e⟩ := p
      by_cases h : k0 = k
      · simp [avgLog, avgFind, logFind, h]
      · simpa [avgLog, avgFind, logFind, h] using ih

theorem innerAtO_map (m : List (String × Samples)) (name : String) :
    innerAtO (m.map (fun q => (q.1, avgLeaf q.2))) name = avgLeaf (innerAt m name) := by
  induction m with
  | nil => simp [innerAtO, innerAt, avgLeaf]
  | cons q rest ih =>
      obtain ⟨k, v⟩ := q
      by_cases h : k = name <;> simp [innerAtO, innerAt, h, ih]

theorem avgAt_avgLog (log : Log) (kind : CallKind) (name : String) :
    avgAt (avgLog log) kind name = avgLeaf (samplesAt log kind name) := by
  cases kind with
  | function =>
      simp only [avgAt, samplesAt, avgFind_avgLog]
      cases hfind : logFind log name with
      | none => simp [avgLeaf]
      | some e => cases e <;> simp [avgEntryOf, avgLeaf]
  | method c =>
      simp only [avgAt, samplesAt, avgFind_avgLog]
      cases hfind : logFind log c with
      | none => simp [avgLeaf]
      | some e =>
          cases e with
          | leaf ts => simp [avgEntryOf, avgLeaf]
          | node m => simp [avgEntryOf, innerAtO_map]

theorem avgLog_keys (log : Log) :
    (avgLog log).map Prod.fst = log.map Prod.fst := by
  induction log with
  | nil => rfl
  | cons p rest ih => simp [avgLog] at ih ⊢

/-! Claims. -/

/-- C1: wrapping any callable `f` with the default configuration
(`return_measure = false`, `n_iter = 1`) and calling the wrapper on `x`
returns exactly `f x` — the plain original result, not a tuple — and exactly
one human-readable timing line (the single-run message) is written to
standard output; this holds for the free-standing decorator and for the
bound decorator of a recorder built with the default options. -/
theorem C1_default_transparent {α β : Type} (f : α → β) (x : α)
    (name : String) (clock : Nat → ℚ) :
    time_execution defaultConfig name f x clock =
      (.plain (f x), [.single name (clock 1 - clock 0) false]) ∧
    ((ExecutionTimer.new true false 1 false).run none true name .function f x clock).2 =
      (.plain (f x), [.single name (clock 1 - clock 0) false]) := by
  constructor <;>
    simp [time_execution, defaultConfig, ExecutionTimer.run, ExecutionTimer.new,
      elapsedTimes_one]

/-- C2: with `return_measure = true` and `n_iter = 1` the wrapped call
returns the 2-tuple of the original result `f x` and the elapsed time of the
single run, nothing is printed, and the elapsed time is non-negative because
the clock is sampled monotonically; this holds for the free-standing
decorator and for a recorder call whose effective `return_measure` is true. -/
theorem C2_return_measure_pair {α β : Type} (f : α → β) (x : α)
    (name : String) (nz ra : Bool) (clock : Nat → ℚ)
    (hclock : clock 0 ≤ clock 1) :
    time_execution ⟨true, nz, 1, ra⟩ name f x clock =
      (.withTime (f x) (clock 1 - clock 0), []) ∧
    ((ExecutionTimer.new true nz 1 false).run (some true) ra name .function f x clock).2 =
      (.withTime (f x) (clock 1 - clock 0), []) ∧
    0 ≤ clock 1 - clock 0 := by
  refine ⟨?_, ?_, ?_⟩
  · simp [time_execution, elapsedTimes_one]
  · simp [ExecutionTimer.run, ExecutionTimer.new, elapsedTimes_one]
  · linarith

theorem C2_witness :
    time_execution ⟨true, false, 1, true⟩ "sample_function" idq 37 clock0 =
      (.withTime 37 (clock0 1 - clock0 0), []) ∧
    ((ExecutionTimer.new true false 1 false).run (some true) true "sample_function"
        .function idq 37 clock0).2 =
      (.withTime 37 (clock0 1 - clock0 0), []) ∧
    0 ≤ clock0 1 - clock0 0 :=
  C2_return_measure_pair idq 37 "sample_function" false true clock0 (by simp [clock0])

/-- C3: one logical call of a callable decorated through a recorder with
`save_measure` enabled and `n_iter = N >= 1` appends exactly the `N` raw
per-iteration elapsed-time samples, in call order, to that callable's log
entry — never just the average — whatever the effective `return_measure`
override and `return_average` are. -/
theorem C3_all_samples_appended {α β : Type} (t : ExecutionTimer)
    (o : Option Bool) (ra : Bool) (name : String) (kind : CallKind)
    (f : α → β) (x : α) (clock : Nat → ℚ)
    (hsave : t.save_measure = true) (_hn : 1 ≤ t.n_iter)
    (hkey : keyCompat t.log kind name = true) :
    samplesAt ((t.run o ra name kind f x clock).1.log) kind name =
      samplesAt t.log kind name ++ elapsedTimes clock t.n_iter ∧
    (elapsedTimes clock t.n_iter).length = t.n_iter := by
  refine ⟨?_, length_elapsedTimes clock t.n_iter⟩
  rw [run_log_save t o ra name kind f x clock hsave]
  cases kind with
  | function => exact samplesAt_record_function _ _ _ hkey
  | method c => exact samplesAt_record_method _ _ _ _ hkey

theorem C3_witness :
    samplesAt (((ExecutionTimer.new true false 5 false).run none true "sample_function"
        .function idq 0 clock0).1.log) .function "sample_function" =
      samplesAt (ExecutionTimer.new true false 5 false).log .function "sample_function" ++
        elapsedTimes clock0 5 ∧
    (elapsedTimes clock0 5).length = 5 :=
  C3_all_samples_appended (ExecutionTimer.new true false 5 false) none true
    "sample_function" .function idq 0 clock0 rfl (by decide) rfl

/-- C4: decorating two methods `m1` and `m2` of a class `C` with the same
recorder and invoking both produces the two-level log
`[(C, node [(m1, samples1), (m2, samples2)])]` — one outer class key with
nested method keys, not two flat top-level keys — while a plain function
records under its single-level name key. -/
theorem C4_method_key_nesting {α β : Type} (C m1 m2 : String) (h : m1 ≠ m2)
    (nz rm ra : Bool) (n : Nat) (f1 f2 : α → β) (x1 x2 : α)
    (clock1 clock2 : Nat → ℚ) :
    (((ExecutionTimer.new true nz n rm).run none ra m1 (.method C) f1 x1 clock1).1.run
        none ra m2 (.method C) f2 x2 clock2).1.get_measured_time =
      [(C, .node [(m1, elapsedTimes clock1 n), (m2, elapsedTimes clock2 n)])] ∧
    ((ExecutionTimer.new true nz n rm).run none ra m1 .function f1 x1 clock1).1.get_measured_time =
      [(m1, .leaf (elapsedTimes clock1 n))] := by
  constructor
  · simp [ExecutionTimer.run, ExecutionTimer.new, ExecutionTimer.get_measured_time,
      record, extendAt, h]
  · simp [ExecutionTimer.run, ExecutionTimer.new, ExecutionTimer.get_measured_time,
      record]

theorem C4_witness :
    (((ExecutionTimer.new true false 1 false).run none true "sample_method"
        (.method "SampleClass") idq 0 clock0).1.run none true "sample_method_x2"
        (.method "SampleClass") idq 0 clock0).1.get_measured_time =
      [("SampleClass", .node [("sample_method", elapsedTimes clock0 1),
        ("sample_method_x2", elapsedTimes clock0 1)])] ∧
    ((ExecutionTimer.new true false 1 false).run none true "sample_method"
        .function idq 0 clock0).1.get_measured_time =
      [("sample_method", .leaf (elapsedTimes clock0 1))] :=
  C4_method_key_nesting "SampleClass" "sample_method" "sample_method_x2"
    (by decide) false false true 1 idq idq 0 0 clock0 clock0

/-- C5: `average_measured_time` keeps the key shape of the log (same outer
keys in the same order, and for every kind of key the averaged value is the
leaf average of the stored samples), every non-empty leaf `[a1, ..., ak]` is
replaced by its arithmetic mean `(a1 + ... + ak) / k`, and an empty leaf is
reported as the absence marker `none` — no crash, no zero, no division. -/
theorem C5_average_shape_and_mean (t : ExecutionTimer) :
    (t.average_measured_time).map Prod.fst = t.log.map Prod.fst ∧
    (∀ (kind : CallKind) (name : String),
      avgAt t.average_measured_time kind name = avgLeaf (samplesAt t.log kind name)) ∧
    (∀ ts : Samples, ts ≠ [] → avgLeaf ts = some (ts.sum / (ts.length : ℚ))) ∧
    avgLeaf [] = none := by
  refine ⟨?_, ?_, ?_, ?_⟩
  · exact avgLog_keys t.log
  · intro kind name
    exact avgAt_avgLog t.log kind name
  · intro ts hts
    cases ts with
    | nil => exact absurd rfl hts
    | cons a rest => simp [avgLeaf, mean]
  · rfl

theorem C5_witness :
    avgLeaf [(1 : ℚ), 2, 3] = some (([(1 : ℚ), 2, 3].sum) / (([(1 : ℚ), 2, 3].length : ℚ))) ∧
    avgAt sampleTimer.average_measured_time (.method "SampleClass") "empty_method" =
      avgLeaf (samplesAt sampleTimer.log (.method "SampleClass") "empty_method") ∧
    avgLeaf [] = none :=
  ⟨(C5_average_shape_and_mean sampleTimer).2.2.1 [1, 2, 3] (by simp),
   (C5_average_shape_and_mean sampleTimer).2.1 (.method "SampleClass") "empty_method",
   (C5_average_shape_and_mean sampleTimer).2.2.2⟩

/-- C6 counterexample: the claim asserts that the bound decorator of a
recorder behaves as the stateless one and prints the iterations-average
message when `n_iter > 1`, `return_measure = false`, `return_average = true`.
On a recorder with `n_iter = 5` (all defaults otherwise, zero elapsed times)
the call instead prints the single-run message with the last elapsed time,
not the iterations-average message the claim predicts. -/
theorem C6_counterexample :
    ((ExecutionTimer.new true false 5 false).run none true "sample_function"
        .function idq 0 clock0).2.2 = [Msg.single "sample_function" 0 false] ∧
    ((ExecutionTimer.new true false 5 false).run none true "sample_function"
        .function idq 0 clock0).2.2 ≠ [Msg.average 5 "sample_function" 0 false] := by
  constructor <;>
    simp [ExecutionTimer.run, ExecutionTimer.new, elapsedTimes, clock0,
      List.range_succ]

/-- C6 (amended): with `n_iter = N > 1`, `return_measure = false` and
`return_average = true`, the free-standing decorator prints the message
"Iterations: N. The \x27name\x27 function was executed in an average of T
unit per iteration." where `T` is the arithmetic mean of the `N` elapsed
times; the bound decorator of a recorder instead prints the single-run
message carrying the elapsed time of the last iteration. -/
theorem C6_amended {α β : Type} (n : Nat) (nz save ra rm : Bool) (log : Log)
    (name : String) (f : α → β) (x : α) (clock : Nat → ℚ) (hn : 1 < n) :
    time_execution ⟨false, nz, n, true⟩ name f x clock =
      (.plain (f x), [.average n name (mean (elapsedTimes clock n)) nz]) ∧
    ((ExecutionTimer.mk save nz n rm log).run (some false) ra name .function f x clock).2.2 =
      [Msg.single name ((elapsedTimes clock n).getLastD 0) nz] := by
  constructor
  · simp [time_execution, hn]
  · simp [ExecutionTimer.run]

theorem C6_witness :
    time_execution ⟨false, false, 2, true⟩ "sample_function" idq 0 clock0 =
      (.plain (idq 0), [.average 2 "sample_function" (mean (elapsedTimes clock0 2)) false]) ∧
    ((ExecutionTimer.mk true false 2 false []).run (some false) true "sample_function"
        .function idq 0 clock0).2.2 =
      [Msg.single "sample_function" ((elapsedTimes clock0 2).getLastD 0) false] :=
  C6_amended 2 false true true false [] "sample_function" idq 0 clock0 (by decide)

/-- C7 counterexample: the claim asserts that with `n_iter > 1`,
`return_measure = true`, `return_average = false` the wrapped call returns
the pair of the last result and the single last elapsed time. With
`n_iter = 2` (zero elapsed times) the call actually returns the last result
paired with the list of both per-iteration times, which is not the
`(R_last, T_last)` pair the claim predicts. -/
theorem C7_counterexample :
    (time_execution ⟨true, false, 2, false⟩ "sample_function" idq 0 clock0).1 =
      TimedResult.withTimes (idq 0) [0, 0] ∧
    (time_execution ⟨true, false, 2, false⟩ "sample_function" idq 0 clock0).1 ≠
      TimedResult.withTime (idq 0) 0 := by
  constructor <;>
    simp [time_execution, elapsedTimes, clock0, idq, List.range_succ]

/-- C7 (amended): with `n_iter = N > 1`, `return_measure = true` and
`return_average = false` the wrapped call returns the 2-tuple of the last
iteration's result and the list of all `N` per-iteration elapsed times, and
nothing is printed. -/
theorem C7_amended {α β : Type} (n : Nat) (nz : Bool) (name : String)
    (f : α → β) (x : α) (clock : Nat → ℚ) (hn : 1 < n) :
    time_execution ⟨true, nz, n, false⟩ name f x clock =
      (.withTimes (f x) (elapsedTimes clock n), []) ∧
    (elapsedTimes clock n).length = n := by
  exact ⟨by simp [time_execution, hn], length_elapsedTimes clock n⟩

theorem C7_witness :
    time_execution ⟨true, false, 2, false⟩ "f" idq 5 clock0 =
      (.withTimes (idq 5) (elapsedTimes clock0 2), []) ∧
    (elapsedTimes clock0 2).length = 2 :=
  C7_amended 2 false "f" idq 5 clock0 (by decide)

/-- C8: for a recorder constructed with `save_measure` disabled, no wrapped
call ever creates or updates a log entry (the recorder state is unchanged by
any call), and `get_measured_time` returns the empty mapping after any
sequence of wrapped calls. -/
theorem C8_save_disabled (nz rm : Bool) (n : Nat) (cs : List CallSpec) :
    (∀ (t : ExecutionTimer) (o : Option Bool) (ra : Bool) (name : String)
        (kind : CallKind) (f : ℚ → ℚ) (x : ℚ) (clock : Nat → ℚ),
      t.save_measure = false → (t.run o ra name kind f x clock).1 = t) ∧
    (runCalls (ExecutionTimer.new false nz n rm) cs).get_measured_time = [] := by
  have hstep : ∀ (t : ExecutionTimer) (o : Option Bool) (ra : Bool) (name : String)
      (kind : CallKind) (f : ℚ → ℚ) (x : ℚ) (clock : Nat → ℚ),
      t.save_measure = false → (t.run o ra name kind f x clock).1 = t := by
    intro t o ra name kind f x clock ht
    exact run_save_false t o ra name kind f x clock ht
  refine ⟨hstep, ?_⟩
  have hall : ∀ (cs2 : List CallSpec) (t : ExecutionTimer),
      t.save_measure = false → runCalls t cs2 = t := by
    intro cs2
    induction cs2 with
    | nil => intro t ht; rfl
    | cons c rest ih =>
        intro t ht
        rw [runCalls, hstep t c.rmOverride c.return_average c.name c.kind c.f c.x c.clock ht]
        exact ih t ht
  rw [hall cs (ExecutionTimer.new false nz n rm) rfl]
  rfl

theorem C8_witness :
    ((ExecutionTimer.new false false 1 false).run none true "sample_function"
        .function idq 0 clock0).1 = ExecutionTimer.new false false 1 false ∧
    (runCalls (ExecutionTimer.new false false 1 false) []).get_measured_time = [] :=
  ⟨(C8_save_disabled false false 1 []).1 (ExecutionTimer.new false false 1 false)
      none true "sample_function" .function idq 0 clock0 rfl,
   (C8_save_disabled false false 1 []).2⟩

/-- C9: configuring a non-positive `n_iter` is a configuration error: both
decoration through the free-standing entry point and construction of a
recorder fail fast with the explicit error message, so the value is never
silently clamped to a valid one. -/
theorem C9_nonpositive_n_iter_fails {α β : Type} (n : Int) (rm nz ra save : Bool)
    (name : String) (f : α → β) (hn : n < 1) :
    time_execution_checked rm nz n ra name f =
      Except.error "n_iter must be a positive integer" ∧
    ExecutionTimer.new_checked save nz n rm =
      Except.error "n_iter must be a positive integer" := by
  constructor <;> simp [time_execution_checked, ExecutionTimer.new_checked, hn]

theorem C9_witness :
    time_execution_checked false false 0 true "sample_function" idq =
      Except.error "n_iter must be a positive integer" ∧
    ExecutionTimer.new_checked true false 0 false =
      Except.error "n_iter must be a positive integer" :=
  C9_nonpositive_n_iter_fails 0 false false true true "sample_function" idq (by decide)

/-- C10: the recorder constructor accepts and stores a `return_measure`
default beyond the three documented options; a `return_measure` value
supplied per decoration overrides that constructor default (the observable
call outcome does not depend on the constructor value once an override is
given), no override falls back to the constructor default, and an override
of `true` makes the call print nothing whatever the constructor default was. -/
theorem C10_return_measure_override {α β : Type} (s nz : Bool) (n : Nat)
    (rm rm2 b ra : Bool) (name : String) (kind : CallKind) (f : α → β)
    (x : α) (clock : Nat → ℚ) :
    (ExecutionTimer.new s nz n rm).return_measure = rm ∧
    ((ExecutionTimer.new s nz n rm).run (some b) ra name kind f x clock).2 =
      ((ExecutionTimer.new s nz n rm2).run (some b) ra name kind f x clock).2 ∧
    (ExecutionTimer.new s nz n rm).run none ra name kind f x clock =
      (ExecutionTimer.new s nz n rm).run (some rm) ra name kind f x clock ∧
    ((ExecutionTimer.new s nz n rm).run (some true) ra name kind f x clock).2.2 = [] := by
  refine ⟨rfl, rfl, rfl, ?_⟩
  by_cases hn : n > 1 <;> by_cases hra : ra <;>
    simp [ExecutionTimer.run, ExecutionTimer.new, hn, hra]

end ExecTimer
